import Mathlib

/-!
Verification of the ray-tracer core (`src/geo/*`, `src/core/camera.rs`).

Embedding conventions:
* `f64` values are modelled as exact rationals (`ℚ`): every arithmetic
  operation the verified code performs (add, sub, mul, div, comparisons,
  min, abs) is exact on the inputs the theorems consider.  Division by
  zero, which IEEE maps to a non-finite value, is the total `ℚ` division
  (`x / 0 = 0`); the theorems that touch a division by zero say so
  explicitly.
* `f64::sqrt` has no exact rational counterpart, so every function that
  calls it takes an explicit square-root function `sq : ℚ → ℚ` as its
  first argument.  Each theorem assumes exactly the properties of `sq`
  that the corresponding floating-point fact provides (non-negativity on
  non-negative inputs, exactness at the points where `sq` is consulted).
* The `rand` draws (`random_f64`, half-open uniform `[0,1)`, and
  `random_unit`, a random unit vector) are passed as explicit arguments.
* `Point3` and `Color` are `#[repr(transparent)]` wrappers around `Vec3`
  whose conversions are identities; both are modelled as `Vec3`.
-/

namespace RayTracer

/-- Three-component vector (`src/geo/vec3.rs`), components modelled as ℚ. -/
structure Vec3 where
  x : ℚ
  y : ℚ
  z : ℚ
deriving DecidableEq, Repr

instance : Add Vec3 := ⟨fun a b => ⟨a.x + b.x, a.y + b.y, a.z + b.z⟩⟩

instance : Neg Vec3 := ⟨fun a => ⟨-a.x, -a.y, -a.z⟩⟩

instance : Sub Vec3 := ⟨fun a b => ⟨a.x - b.x, a.y - b.y, a.z - b.z⟩⟩

/-- Component-wise product (`impl ops::Mul<Vec3> for Vec3`). -/
instance : Mul Vec3 := ⟨fun a b => ⟨a.x * b.x, a.y * b.y, a.z * b.z⟩⟩

/-- Scalar multiplication (`impl ops::Mul<Vec3> for f64`). -/
instance : SMul ℚ Vec3 := ⟨fun k a => ⟨k * a.x, k * a.y, k * a.z⟩⟩

/-- Scalar division (`impl ops::Div<f64> for Vec3`). -/
instance : HDiv Vec3 ℚ Vec3 := ⟨fun a k => ⟨a.x / k, a.y / k, a.z / k⟩⟩

/-- Source `Vec3::length_squared`. -/
def Vec3.length_squared (v : Vec3) : ℚ :=
  v.x * v.x + v.y * v.y + v.z * v.z

/-- Source `Vec3::dot`. -/
def Vec3.dot (v w : Vec3) : ℚ :=
  v.x * w.x + v.y * w.y + v.z * w.z

/-- Source `Vec3::length`, with the square root abstracted as `sq`. -/
def Vec3.length (sq : ℚ → ℚ) (v : Vec3) : ℚ :=
  sq v.length_squared

/-- Source `Vec3::unit`: division by the length (documented precondition: non-zero). -/
def Vec3.unit (sq : ℚ → ℚ) (v : Vec3) : Vec3 :=
  v / v.length sq

/-- Source `Vec3::near_zero`: all components below `1e-8` in absolute value. -/
def Vec3.near_zero (v : Vec3) : Prop :=
  |v.x| < 1e-8 ∧ |v.y| < 1e-8 ∧ |v.z| < 1e-8

instance (v : Vec3) : Decidable v.near_zero :=
  inferInstanceAs (Decidable (_ ∧ _ ∧ _))

/-- Source `Vec3::reflect`: `v - 2 * (v·n) * n`. -/
def Vec3.reflect (v normal : Vec3) : Vec3 :=
  v - (2 * v.dot normal) • normal

/-- Source `Vec3::cos_theta`: `-self.dot(normal).min(1.0)`. -/
def Vec3.cos_theta (v normal : Vec3) : ℚ :=
  -(min (v.dot normal) 1)

/-- Source `Vec3::refract` (Snell), square root abstracted as `sq`. -/
def Vec3.refract (sq : ℚ → ℚ) (v normal : Vec3) (refraction_index : ℚ) : Vec3 :=
  let ct := v.cos_theta normal
  let r_out_perp := refraction_index • (v + ct • normal)
  let r_out_para := (-(sq |1 - r_out_perp.length_squared|)) • normal
  r_out_perp + r_out_para

/-- Source `Ray` (`src/geo/ray.rs`): origin and (not necessarily unit) direction. -/
structure Ray where
  origin : Vec3
  direction : Vec3
deriving DecidableEq, Repr

/-- Source `Ray::at`: `origin + t * direction`. -/
def Ray.at (r : Ray) (t : ℚ) : Vec3 :=
  r.origin + t • r.direction

/-- Source `Interval` (`src/geo/interval.rs`). -/
structure Interval where
  min : ℚ
  max : ℚ
deriving DecidableEq, Repr

/-- Source `Interval::surrounds`: strict membership `min < x && x < max`. -/
def Interval.surrounds (i : Interval) (x : ℚ) : Prop :=
  i.min < x ∧ x < i.max

instance (i : Interval) (x : ℚ) : Decidable (i.surrounds x) :=
  inferInstanceAs (Decidable (_ ∧ _))

/-- Source `Lambertian` material data (`src/geo/material.rs`). -/
structure Lambertian where
  albedo : Vec3
  reflectance : ℚ
  uniform : Bool
deriving DecidableEq, Repr

/-- Source `Metal` material data. -/
structure Metal where
  albedo : Vec3
  reflectance : ℚ
  fuzz : ℚ
deriving DecidableEq, Repr

/-- Source `Dielectric` material data. -/
structure Dielectric where
  refraction_index : ℚ
deriving DecidableEq, Repr

/-- Source `material::Type`: the closed material enum. -/
inductive MaterialType where
  | empty : MaterialType
  | debug : MaterialType
  | lambertian : Lambertian → MaterialType
  | metal : Metal → MaterialType
  | dielectric : Dielectric → MaterialType
deriving DecidableEq, Repr

/-- Source `MetalParams` passed to `Type::from`. -/
structure MetalParams where
  albedo : Vec3
  reflectance : ℚ
  fuzz : ℚ
deriving DecidableEq, Repr

/-- Source `Type::from(MetalParams)`: the stored fuzz is `params.fuzz.min(1.0)`. -/
def metalFromParams (p : MetalParams) : MaterialType :=
  .metal ⟨p.albedo, p.reflectance, min p.fuzz 1⟩

/-- Source `HitRecord` (`src/geo/hittable.rs`). -/
structure HitRecord where
  p : Vec3
  normal : Vec3
  t : ℚ
  front_face : Bool
  material : MaterialType
deriving DecidableEq, Repr

/-- Source `HitRecord::set_face_normal`: orient the stored normal against the ray. -/
def HitRecord.set_face_normal (rec : HitRecord) (ray : Ray) : HitRecord :=
  let front : Bool := decide (ray.direction.dot rec.normal < 0)
  { rec with
      front_face := front
      normal := if front then rec.normal else -rec.normal }

/-- Source `Sphere` (`src/geo/sphere.rs`). -/
structure Sphere where
  center : Vec3
  radius : ℚ
  material : MaterialType
  collision : Bool
deriving DecidableEq, Repr

/-- Source `SphereBuilder::build` with all fields supplied: the radius is clamped
to `≥ 0` via `radius.max(0.0)`. -/
def buildSphere (center : Vec3) (radius : ℚ) (material : MaterialType)
    (collision : Bool) : Sphere :=
  ⟨center, max radius 0, material, collision⟩

/-- The record `Sphere::hit` constructs for a chosen root, including the
`set_face_normal` fix-up; the raw normal is `(P - C) / radius`. -/
def Sphere.record (s : Sphere) (ray : Ray) (root : ℚ) : HitRecord :=
  let p := ray.at root
  let normal := (p - s.center) / s.radius
  HitRecord.set_face_normal
    { t := root, p := p, normal := normal, front_face := false,
      material := s.material } ray

/-- Intermediate value `oc = C - O` of `Sphere::hit`. -/
def Sphere.oc (s : Sphere) (ray : Ray) : Vec3 :=
  s.center - ray.origin

/-- Intermediate value `h = D·oc` of `Sphere::hit`. -/
def Sphere.hval (s : Sphere) (ray : Ray) : ℚ :=
  ray.direction.dot (s.oc ray)

/-- The discriminant `h² - a·c` of `Sphere::hit`, where `a = D·D` and
`c = oc·oc - r²`. -/
def Sphere.disc (s : Sphere) (ray : Ray) : ℚ :=
  s.hval ray * s.hval ray -
    ray.direction.length_squared * ((s.oc ray).length_squared - s.radius * s.radius)

/-- The smaller candidate root `(h - √disc) / a`. -/
def Sphere.root1 (sq : ℚ → ℚ) (s : Sphere) (ray : Ray) : ℚ :=
  (s.hval ray - sq (s.disc ray)) / ray.direction.length_squared

/-- The larger candidate root `(h + √disc) / a`. -/
def Sphere.root2 (sq : ℚ → ℚ) (s : Sphere) (ray : Ray) : ℚ :=
  (s.hval ray + sq (s.disc ray)) / ray.direction.length_squared

/-- Source `Sphere::hit` (`src/geo/sphere.rs`): discriminant test, then the smaller
root if strictly inside `(t_min, t_max)`, else the larger root, else none. -/
def Sphere.hit (sq : ℚ → ℚ) (s : Sphere) (ray : Ray) (t_min t_max : ℚ) :
    Option HitRecord :=
  let t_interval : Interval := ⟨t_min, t_max⟩
  if s.disc ray < 0 then
    none
  else if t_interval.surrounds (s.root1 sq ray) then
    some (s.record ray (s.root1 sq ray))
  else if t_interval.surrounds (s.root2 sq ray) then
    some (s.record ray (s.root2 sq ray))
  else
    none

/-- The `closest_so_far` bound maintained by `HittableList::hit`:
`t_max` until a hit is found, then the latest hit's `t`. -/
def closestSoFar (t_max : ℚ) (acc : Option HitRecord) : ℚ :=
  match acc with
  | none => t_max
  | some rec => rec.t

/-- One iteration of the `HittableList::hit` scan. -/
def listHitStep (sq : ℚ → ℚ) (ray : Ray) (t_min t_max : ℚ)
    (acc : Option HitRecord) (object : Sphere) : Option HitRecord :=
  match object.hit sq ray t_min (closestSoFar t_max acc) with
  | some h => some h
  | none => acc

/-- Source `HittableList::hit` over a scene of spheres: linear scan, progressively
narrowing `t_max` to the closest hit found so far. -/
def hittableListHit (sq : ℚ → ℚ) (objects : List Sphere) (ray : Ray)
    (t_min t_max : ℚ) : Option HitRecord :=
  objects.foldl (listHitStep sq ray t_min t_max) none

/-- Source `ScatterRecord` (`src/geo/material.rs`): outgoing ray, attenuation,
optional direct terminal color. -/
structure ScatterRecord where
  ray : Ray
  attenuation : Vec3
  color : Option Vec3
deriving DecidableEq, Repr

/-- The random draws one `scatter` call may consume: `q` is a `random_f64`
draw (uniform in `[0,1)`); `u1` and `u2` are `random_unit()` draws. -/
structure Draws where
  q : ℚ
  u1 : Vec3
  u2 : Vec3
deriving DecidableEq, Repr

/-- Source `ReflectanceScatterOptions` (`src/geo/material.rs`). -/
structure ReflectanceScatterOptions where
  hit_record : HitRecord
  direction : Vec3
  albedo : Vec3
  reflectance : ℚ
  fuzz : ℚ
deriving DecidableEq, Repr

/-- Source `reflectance_scatter` (`src/geo/material.rs`): absorb when the uniform
draw `q` exceeds the reflectance, otherwise build the outgoing ray from
`direction.unit() + fuzz * u`, absorb if it points into the surface, and
attenuate by `albedo / reflectance`. -/
def reflectance_scatter (sq : ℚ → ℚ) (options : ReflectanceScatterOptions)
    (q : ℚ) (u : Vec3) : Option ScatterRecord :=
  if q > options.reflectance then
    none
  else
    let reflected := options.direction.unit sq + options.fuzz • u
    let scattered_ray : Ray := ⟨options.hit_record.p, reflected⟩
    let outward_component := scattered_ray.direction.dot options.hit_record.normal
    if outward_component < 0 then
      none
    else
      some { ray := scattered_ray,
             attenuation := options.albedo / options.reflectance,
             color := none }

/-- Schlick's approximation `reflectance` (`src/geo/material.rs`). -/
def schlick (cosine refraction_index : ℚ) : ℚ :=
  let r0 := (1 - refraction_index) / (1 + refraction_index)
  let r0 := r0 * r0
  r0 + (1 - r0) * (1 - cosine) ^ 5

/-- Source `random_unit_normal_direction` (`src/geo/core.rs`) applied to a random
unit draw `u`: flip `u` into the hemisphere of `normal`. -/
def random_unit_normal_direction (normal u : Vec3) : Vec3 :=
  if u.dot normal > 0 then u else -u

/-- Source `Lambertian::scatter`: the candidate direction (`normal + random_unit()`
with the near-zero fallback, or the uniform-hemisphere mode), passed through
`reflectance_scatter` with fuzz `0`. -/
def Lambertian.scatter (sq : ℚ → ℚ) (m : Lambertian) (hit_record : HitRecord)
    (d : Draws) : Option ScatterRecord :=
  let direction :=
    if m.uniform then
      random_unit_normal_direction hit_record.normal d.u1
    else
      let dir := hit_record.normal + d.u1
      if dir.near_zero then hit_record.normal else dir
  reflectance_scatter sq
    { hit_record := hit_record, direction := direction, albedo := m.albedo,
      reflectance := m.reflectance, fuzz := 0 } d.q d.u2

/-- Source `Metal::scatter`: mirror reflection of the incoming direction about the
normal, passed through `reflectance_scatter` with the material's fuzz. -/
def Metal.scatter (sq : ℚ → ℚ) (m : Metal) (ray_in : Ray)
    (hit_record : HitRecord) (d : Draws) : Option ScatterRecord :=
  let direction := ray_in.direction.reflect hit_record.normal
  reflectance_scatter sq
    { hit_record := hit_record, direction := direction, albedo := m.albedo,
      reflectance := m.reflectance, fuzz := m.fuzz } d.q d.u2

/-- Source `Dielectric::scatter`: refract unless total internal reflection or the
Schlick draw forces reflection; always scatters with white attenuation. -/
def Dielectric.scatter (sq : ℚ → ℚ) (m : Dielectric) (ray_in : Ray)
    (hit_record : HitRecord) (d : Draws) : Option ScatterRecord :=
  let refraction_index :=
    if hit_record.front_face then 1 / m.refraction_index else m.refraction_index
  let incident_uv := ray_in.direction.unit sq
  let ct := incident_uv.cos_theta hit_record.normal
  let sin_theta := sq (1 - ct * ct)
  let cannot_refract := refraction_index * sin_theta > 1
  let must_reflect := schlick ct refraction_index > d.q
  let direction :=
    if cannot_refract ∨ must_reflect then
      incident_uv.reflect hit_record.normal
    else
      incident_uv.refract sq hit_record.normal refraction_index
  some { ray := ⟨hit_record.p, direction⟩, attenuation := ⟨1, 1, 1⟩, color := none }

/-- Source `Debug` material `scatter`: direct terminal color from the normal. -/
def debugScatter (ray_in : Ray) (hit_record : HitRecord) : Option ScatterRecord :=
  let normal_01 := (1 / 2 : ℚ) • (hit_record.normal + ⟨1, 1, 1⟩)
  some { ray := ray_in, attenuation := ⟨0, 0, 0⟩, color := some normal_01 }

/-- Source `Type::scatter`: dispatch over the material enum. -/
def MaterialType.scatter (sq : ℚ → ℚ) (m : MaterialType) (ray_in : Ray)
    (hit_record : HitRecord) (d : Draws) : Option ScatterRecord :=
  match m with
  | .empty => none
  | .debug => debugScatter ray_in hit_record
  | .lambertian l => l.scatter sq hit_record d
  | .metal mt => mt.scatter sq ray_in hit_record d
  | .dielectric di => di.scatter sq ray_in hit_record d

/-- Strict membership in `(t_min, t_max)` where `t_max` may be `+∞`
(`none`), as in `world.hit(ray, 0.001, f64::INFINITY)`: every finite
value is below `+∞`. -/
def surroundsUpto (t_min : ℚ) (t_max : Option ℚ) (x : ℚ) : Prop :=
  match t_max with
  | none => t_min < x
  | some m => t_min < x ∧ x < m

instance (t_min : ℚ) (t_max : Option ℚ) (x : ℚ) :
    Decidable (surroundsUpto t_min t_max x) :=
  match t_max with
  | none => inferInstanceAs (Decidable (_ < _))
  | some _ => inferInstanceAs (Decidable (_ ∧ _))

/-- Source `Sphere::hit` with a possibly-infinite upper bound (the form the
integrator uses). -/
def Sphere.hitUpto (sq : ℚ → ℚ) (s : Sphere) (ray : Ray) (t_min : ℚ)
    (t_max : Option ℚ) : Option HitRecord :=
  if s.disc ray < 0 then
    none
  else if surroundsUpto t_min t_max (s.root1 sq ray) then
    some (s.record ray (s.root1 sq ray))
  else if surroundsUpto t_min t_max (s.root2 sq ray) then
    some (s.record ray (s.root2 sq ray))
  else
    none

/-- Source `HittableList::hit` with initial upper bound `+∞`; once a hit is found
`closest_so_far` is its finite `t`. -/
def hittableListHitUpto (sq : ℚ → ℚ) (objects : List Sphere) (ray : Ray)
    (t_min : ℚ) : Option HitRecord :=
  objects.foldl
    (fun acc object =>
      match object.hitUpto sq ray t_min (Option.map HitRecord.t acc) with
      | some h => some h
      | none => acc)
    none

/-- Source `lerp` (`src/core/camera.rs`). -/
def lerp (t : ℚ) (start finish : Vec3) : Vec3 :=
  (1 - t) • start + t • finish

/-- Source `ray_color` (`src/core/camera.rs`), instrumented: the first component is
the color the source computes, the second counts the nesting depth of
recursive `ray_color` calls performed. `draws n` supplies the random draws
consumed by the scatter call made when the remaining depth is `n + 1`. -/
def ray_color_core (sq : ℚ → ℚ) (world : List Sphere) (draws : ℕ → Draws) :
    Ray → ℕ → Vec3 × ℕ
  | _, 0 => (⟨0, 0, 0⟩, 0)
  | ray, depth + 1 =>
    match hittableListHitUpto sq world ray (1 / 1000) with
    | some hit =>
      match hit.material.scatter sq ray hit (draws depth) with
      | some scatter_record =>
        match scatter_record.color with
        | some color => (color, 0)
        | none =>
          let rest := ray_color_core sq world draws scatter_record.ray depth
          (scatter_record.attenuation * rest.1, rest.2 + 1)
      | none => (⟨0, 0, 0⟩, 0)
    | none =>
      let unit_direction := ray.direction.unit sq
      let a := (1 / 2 : ℚ) * (unit_direction.y + 1)
      (lerp a ⟨1, 1, 1⟩ ⟨1 / 2, 7 / 10, 1⟩, 0)

/-- Source `ray_color`: the color component of `ray_color_core`. -/
def ray_color (sq : ℚ → ℚ) (world : List Sphere) (draws : ℕ → Draws)
    (ray : Ray) (depth : ℕ) : Vec3 :=
  (ray_color_core sq world draws ray depth).1

/-! Concrete fixtures used to instantiate the theorems. -/

/-- The sphere of the repo's `test_sphere_hit` unit test. -/
def sphereDemo : Sphere := ⟨⟨0, 0, -1⟩, 1 / 2, .empty, true⟩

/-- The ray of `test_sphere_hit`: origin `(0,0,0)`, direction `(0,0,-1)`. -/
def rayDemo : Ray := ⟨⟨0, 0, 0⟩, ⟨0, 0, -1⟩⟩

/-- The ray of `test_sphere_miss`: origin `(0,1,0)`, direction `(0,0,-1)`. -/
def rayMiss : Ray := ⟨⟨0, 1, 0⟩, ⟨0, 0, -1⟩⟩

/-- First of two geometrically identical spheres (Debug material). -/
def sphereA : Sphere := ⟨⟨0, 0, -2⟩, 1, .debug, true⟩

/-- Second of two geometrically identical spheres (Empty material). -/
def sphereB : Sphere := ⟨⟨0, 0, -2⟩, 1, .empty, true⟩

/-- The hit record `sphereA` produces for `rayDemo` at `t = 1`. -/
def recTieA : HitRecord := ⟨⟨0, 0, -1⟩, ⟨0, 0, 1⟩, 1, true, .debug⟩

/-- The hit record `sphereB` produces for `rayDemo` at `t = 1`. -/
def recTieB : HitRecord := ⟨⟨0, 0, -1⟩, ⟨0, 0, 1⟩, 1, true, .empty⟩

/-- A square-root table that is exact at the two points the metal-scatter
counterexample consults it (`4 ↦ 2`, `9 ↦ 3`). -/
def sqC (x : ℚ) : ℚ :=
  if x = 4 then 2 else if x = 9 then 3 else 0

/-- Metal with full reflectance and fuzz `1`. -/
def metal0 : Metal := ⟨⟨1, 0, 0⟩, 1, 1⟩

/-- Incoming ray for the metal-scatter counterexample (direction `(0,-2,0)`,
hitting a surface with normal `(0,1,0)`). -/
def rayIn : Ray := ⟨⟨0, 2, 0⟩, ⟨0, -2, 0⟩⟩

/-- Hit record for the metal-scatter counterexample. -/
def hitC6 : HitRecord := ⟨⟨0, 0, 0⟩, ⟨0, 1, 0⟩, 1, true, .metal metal0⟩

/-- Draws for the metal-scatter counterexample: gate draw `0`, fuzz draw
`(0,1,0)`. -/
def drawC6 : Draws := ⟨0, ⟨0, 0, 0⟩, ⟨0, 1, 0⟩⟩

/-- The scatter record `Metal::scatter` actually produces in the
counterexample: outgoing direction `unit(reflected) + fuzz * u = (0,2,0)`. -/
def scC6 : ScatterRecord := ⟨⟨⟨0, 0, 0⟩, ⟨0, 2, 0⟩⟩, ⟨1, 0, 0⟩, none⟩

/-- A hit record whose normal is `(0,0,1)`. -/
def hitC2 : HitRecord := ⟨⟨0, 0, 0⟩, ⟨0, 0, 1⟩, 1, true, .empty⟩

/-- Source `reflectance_scatter` options with reflectance `0` (zero-reflectance
material) and candidate direction along the normal. -/
def optsZero : ReflectanceScatterOptions := ⟨hitC2, ⟨0, 0, 1⟩, ⟨1, 1, 1⟩, 0, 0⟩

/-- A sphere built with a negative radius input: the builder clamps the
radius to `0`. -/
def sphereZero : Sphere := buildSphere ⟨0, 0, -1⟩ (-5) .empty true

/-! Unfolding lemmas for the vector operations (all are `rfl`). -/

@[simp] theorem Vec3.mk_add_mk (a b c d e f : ℚ) :
    (⟨a, b, c⟩ + ⟨d, e, f⟩ : Vec3) = ⟨a + d, b + e, c + f⟩ := rfl

@[simp] theorem Vec3.neg_mk (a b c : ℚ) : (-(⟨a, b, c⟩ : Vec3)) = ⟨-a, -b, -c⟩ := rfl

@[simp] theorem Vec3.mk_sub_mk (a b c d e f : ℚ) :
    ((⟨a, b, c⟩ : Vec3) - ⟨d, e, f⟩) = ⟨a - d, b - e, c - f⟩ := rfl

@[simp] theorem Vec3.mk_hmul_mk (a b c d e f : ℚ) :
    ((⟨a, b, c⟩ : Vec3) * ⟨d, e, f⟩) = ⟨a * d, b * e, c * f⟩ := rfl

@[simp] theorem Vec3.smul_mk (k a b c : ℚ) :
    (k • (⟨a, b, c⟩ : Vec3)) = ⟨k * a, k * b, k * c⟩ := rfl

@[simp] theorem Vec3.mk_div (a b c k : ℚ) :
    ((⟨a, b, c⟩ : Vec3) / k) = ⟨a / k, b / k, c / k⟩ := rfl

@[simp] theorem Vec3.dot_mk (a b c d e f : ℚ) :
    Vec3.dot ⟨a, b, c⟩ ⟨d, e, f⟩ = a * d + b * e + c * f := rfl

@[simp] theorem Vec3.length_squared_mk (a b c : ℚ) :
    Vec3.length_squared ⟨a, b, c⟩ = a * a + b * b + c * c := rfl

/-- The dot product is symmetric. -/
theorem Vec3.dot_comm (a b : Vec3) : a.dot b = b.dot a := by
  cases a; cases b; simp only [Vec3.dot_mk]; ring

/-- Dot product with a negated left argument. -/
theorem Vec3.neg_dot (a b : Vec3) : (-a).dot b = -(a.dot b) := by
  cases a; cases b; simp only [Vec3.neg_mk, Vec3.dot_mk]; ring

/-- A squared length is non-negative. -/
theorem Vec3.length_squared_nonneg (v : Vec3) : 0 ≤ v.length_squared := by
  obtain ⟨a, b, c⟩ := v
  simp only [Vec3.length_squared_mk]
  nlinarith [mul_self_nonneg a, mul_self_nonneg b, mul_self_nonneg c]

/-! Helper lemmas about `Sphere.hit`. -/

/-- The `t` stored by `Sphere.record` is the chosen root. -/
theorem Sphere.record_t (s : Sphere) (ray : Ray) (root : ℚ) :
    (s.record ray root).t = root := rfl

/-- The smaller candidate root is at most the larger one, provided the
square root of the (non-negative) discriminant is non-negative. -/
theorem Sphere.root1_le_root2 (sq : ℚ → ℚ) (s : Sphere) (ray : Ray)
    (hsd : 0 ≤ sq (s.disc ray)) :
    s.root1 sq ray ≤ s.root2 sq ray := by
  unfold Sphere.root1 Sphere.root2
  rcases eq_or_lt_of_le (Vec3.length_squared_nonneg ray.direction) with ha | ha
  · rw [← ha, div_zero, div_zero]
  · exact (div_le_div_iff_of_pos_right ha).mpr (by linarith)

/-- A record returned by `Sphere::hit` has its parameter strictly inside
`(t_min, t_max)`. -/
theorem Sphere.hit_t_mem (sq : ℚ → ℚ) (s : Sphere) (ray : Ray)
    (t_min t_max : ℚ) (rec : HitRecord)
    (h : s.hit sq ray t_min t_max = some rec) :
    t_min < rec.t ∧ rec.t < t_max := by
  simp only [Sphere.hit] at h
  split_ifs at h with h1 h2 h3
  · obtain rfl := Option.some_injective _ h
    exact h2
  · obtain rfl := Option.some_injective _ h
    exact h3

/-- Widening the upper bound preserves a hit, returning the same record:
the root the narrow query chose is the one the wide query chooses. -/
theorem Sphere.hit_widen (sq : ℚ → ℚ) (Hsq : ∀ x, 0 ≤ x → 0 ≤ sq x)
    (s : Sphere) (ray : Ray) (t_min T t_max : ℚ) (hT : T ≤ t_max)
    (rec : HitRecord) (h : s.hit sq ray t_min T = some rec) :
    s.hit sq ray t_min t_max = some rec := by
  simp only [Sphere.hit] at h ⊢
  split_ifs at h with h1 h2 h3
  · rw [if_neg h1, if_pos (show (⟨t_min, t_max⟩ : Interval).surrounds (s.root1 sq ray) from
      ⟨h2.1, lt_of_lt_of_le h2.2 hT⟩)]
    exact h
  · have hr12 := Sphere.root1_le_root2 sq s ray (Hsq _ (not_lt.mp h1))
    have hn1 : ¬ (⟨t_min, t_max⟩ : Interval).surrounds (s.root1 sq ray) := by
      intro hc
      exact h2 ⟨hc.1, lt_of_le_of_lt hr12 h3.2⟩
    rw [if_neg h1, if_neg hn1, if_pos (show (⟨t_min, t_max⟩ : Interval).surrounds
        (s.root2 sq ray) from ⟨h3.1, lt_of_lt_of_le h3.2 hT⟩)]
    exact h

/-- Narrowing the upper bound preserves a miss. -/
theorem Sphere.hit_narrow_none (sq : ℚ → ℚ) (s : Sphere) (ray : Ray)
    (t_min T t_max : ℚ) (hT : T ≤ t_max)
    (h : s.hit sq ray t_min t_max = none) :
    s.hit sq ray t_min T = none := by
  simp only [Sphere.hit] at h ⊢
  split_ifs at h with h1 h2 h3
  · rw [if_pos h1]
  · have hn1 : ¬ (⟨t_min, T⟩ : Interval).surrounds (s.root1 sq ray) := by
      intro hc
      exact h2 ⟨hc.1, lt_of_lt_of_le hc.2 hT⟩
    have hn2 : ¬ (⟨t_min, T⟩ : Interval).surrounds (s.root2 sq ray) := by
      intro hc
      exact h3 ⟨hc.1, lt_of_lt_of_le hc.2 hT⟩
    rw [if_neg h1, if_neg hn1, if_neg hn2]

/-- Narrowing the upper bound to a value still above a found hit keeps some
hit, at most as far away. -/
theorem Sphere.hit_narrow_some (sq : ℚ → ℚ) (Hsq : ∀ x, 0 ≤ x → 0 ≤ sq x)
    (s : Sphere) (ray : Ray) (t_min T t_max : ℚ)
    (rec : HitRecord) (h : s.hit sq ray t_min t_max = some rec)
    (hlt : rec.t < T) :
    ∃ rec2, s.hit sq ray t_min T = some rec2 ∧ rec2.t ≤ rec.t := by
  simp only [Sphere.hit] at h ⊢
  split_ifs at h with h1 h2 h3
  · obtain rfl := Option.some_injective _ h
    rw [Sphere.record_t] at hlt
    refine ⟨_, ?_, le_refl _⟩
    rw [if_neg h1, if_pos (show (⟨t_min, T⟩ : Interval).surrounds (s.root1 sq ray) from
      ⟨h2.1, hlt⟩)]
  · obtain rfl := Option.some_injective _ h
    rw [Sphere.record_t] at hlt
    by_cases hr1 : (⟨t_min, T⟩ : Interval).surrounds (s.root1 sq ray)
    · refine ⟨_, by rw [if_neg h1, if_pos hr1], ?_⟩
      rw [Sphere.record_t, Sphere.record_t]
      exact Sphere.root1_le_root2 sq s ray (Hsq _ (not_lt.mp h1))
    · refine ⟨_, ?_, le_of_eq rfl⟩
      rw [if_neg h1, if_neg hr1, if_pos (show (⟨t_min, T⟩ : Interval).surrounds
          (s.root2 sq ray) from ⟨h3.1, hlt⟩)]

/-- Invariant of the `HittableList::hit` scan, generalized over the
accumulator: a `none` result means every object misses at the full
interval; a `some` result is no farther than the accumulator's bound, is
either the accumulator or a full-interval hit of a scanned object, and is
no farther than any full-interval hit of any scanned object. -/
theorem listHit_fold_spec (sq : ℚ → ℚ) (Hsq : ∀ x, 0 ≤ x → 0 ≤ sq x)
    (ray : Ray) (t_min t_max : ℚ) :
    ∀ (L : List Sphere) (acc : Option HitRecord),
      closestSoFar t_max acc ≤ t_max →
      ((List.foldl (listHitStep sq ray t_min t_max) acc L = none →
          acc = none ∧ ∀ s ∈ L, s.hit sq ray t_min t_max = none) ∧
       (∀ rec, List.foldl (listHitStep sq ray t_min t_max) acc L = some rec →
          rec.t ≤ closestSoFar t_max acc ∧
          (acc = some rec ∨ ∃ s ∈ L, s.hit sq ray t_min t_max = some rec) ∧
          ∀ s ∈ L, ∀ rec2, s.hit sq ray t_min t_max = some rec2 → rec.t ≤ rec2.t)) := by
  intro L
  induction L with
  | nil =>
    intro acc hacc
    constructor
    · intro h
      exact ⟨h, by simp⟩
    · intro rec h
      simp only [List.foldl_nil] at h
      refine ⟨le_of_eq (by rw [h]; rfl), Or.inl h, by simp⟩
  | cons o L2 ih =>
    intro acc hacc
    cases ho : o.hit sq ray t_min (closestSoFar t_max acc) with
    | some hrec =>
      have hmem := Sphere.hit_t_mem sq o ray t_min _ hrec ho
      have hfull : o.hit sq ray t_min t_max = some hrec :=
        Sphere.hit_widen sq Hsq o ray t_min _ t_max hacc hrec ho
      have hacc2 : closestSoFar t_max (some hrec) ≤ t_max :=
        le_trans (le_of_lt hmem.2) hacc
      have ih2 := ih (some hrec) hacc2
      have hstep : List.foldl (listHitStep sq ray t_min t_max) acc (o :: L2) =
          List.foldl (listHitStep sq ray t_min t_max) (some hrec) L2 := by
        simp [List.foldl_cons, listHitStep, ho]
      constructor
      · intro h
        rw [hstep] at h
        exact absurd (ih2.1 h).1 (by simp)
      · intro rec h
        rw [hstep] at h
        obtain ⟨hle, hsrc, hmin⟩ := ih2.2 rec h
        refine ⟨le_trans hle (le_of_lt hmem.2), ?_, ?_⟩
        · rcases hsrc with heq | ⟨s, hs, hfs⟩
          · right
            obtain rfl := Option.some_injective _ heq
            exact ⟨o, by simp, hfull⟩
          · right
            exact ⟨s, by simp [hs], hfs⟩
        · intro s hs rec2 h2
          rcases List.mem_cons.mp hs with rfl | hs2
          · rw [hfull] at h2
            obtain rfl := Option.some_injective _ h2
            exact hle
          · exact hmin s hs2 rec2 h2
    | none =>
      have ih2 := ih acc hacc
      have hstep : List.foldl (listHitStep sq ray t_min t_max) acc (o :: L2) =
          List.foldl (listHitStep sq ray t_min t_max) acc L2 := by
        simp [List.foldl_cons, listHitStep, ho]
      constructor
      · intro h
        rw [hstep] at h
        obtain ⟨ha, hall⟩ := ih2.1 h
        refine ⟨ha, ?_⟩
        intro s hs
        rcases List.mem_cons.mp hs with rfl | hs2
        · rw [ha] at ho
          exact ho
        · exact hall s hs2
      · intro rec h
        rw [hstep] at h
        obtain ⟨hle, hsrc, hmin⟩ := ih2.2 rec h
        refine ⟨hle, ?_, ?_⟩
        · rcases hsrc with heq | ⟨s, hs, hfs⟩
          · exact Or.inl heq
          · exact Or.inr ⟨s, by simp [hs], hfs⟩
        · intro s hs rec2 h2
          rcases List.mem_cons.mp hs with rfl | hs2
          · rcases lt_or_le rec2.t (closestSoFar t_max acc) with hlt | hge
            · obtain ⟨rec3, h3, _⟩ :=
                Sphere.hit_narrow_some sq Hsq s ray t_min _ t_max rec2 h2 hlt
              rw [ho] at h3
              exact Option.noConfusion h3
            · exact le_trans hle hge
          · exact hmin s hs2 rec2 h2

/-- C1: every record a `Sphere::hit` or `HittableList::hit` query returns
has its parameter strictly inside the open interval `(t_min, t_max)`, and
the list query returns a full-interval hit of one of its objects that is
closest among all full-interval hits, or `none` exactly when every object
misses. -/
theorem C1_open_interval_closest (sq : ℚ → ℚ) (Hsq : ∀ x, 0 ≤ x → 0 ≤ sq x)
    (L : List Sphere) (ray : Ray) (t_min t_max : ℚ) :
    (∀ s rec, Sphere.hit sq s ray t_min t_max = some rec →
        t_min < rec.t ∧ rec.t < t_max) ∧
    (∀ rec, hittableListHit sq L ray t_min t_max = some rec →
        (t_min < rec.t ∧ rec.t < t_max) ∧
        (∃ s ∈ L, Sphere.hit sq s ray t_min t_max = some rec) ∧
        ∀ s ∈ L, ∀ rec2, Sphere.hit sq s ray t_min t_max = some rec2 →
          rec.t ≤ rec2.t) ∧
    (hittableListHit sq L ray t_min t_max = none →
        ∀ s ∈ L, Sphere.hit sq s ray t_min t_max = none) := by
  have hspec := listHit_fold_spec sq Hsq ray t_min t_max L none (le_refl _)
  refine ⟨?_, ?_, ?_⟩
  · intro s rec h
    exact Sphere.hit_t_mem sq s ray t_min t_max rec h
  · intro rec h
    obtain ⟨hle, hsrc, hmin⟩ := hspec.2 rec h
    rcases hsrc with heq | ⟨s, hs, hfs⟩
    · exact Option.noConfusion heq
    · exact ⟨Sphere.hit_t_mem sq s ray t_min t_max rec hfs, ⟨s, hs, hfs⟩, hmin⟩
  · intro h
    exact (hspec.1 h).2

/-- Witness for C1 at a concrete one-sphere scene and ray. -/
theorem C1_witness : (1 / 1000 : ℚ) < recTieA.t ∧ recTieA.t < 100 := by
  refine ((C1_open_interval_closest id (fun x hx => hx) [sphereA] rayDemo
      (1 / 1000) 100).2.1 recTieA ?_).1
  norm_num [sphereA, rayDemo, recTieA, hittableListHit, listHitStep, closestSoFar,
    Sphere.hit, Sphere.record, Sphere.disc, Sphere.root1, Sphere.root2, Sphere.hval,
    Sphere.oc, Interval.surrounds, HitRecord.set_face_normal, Ray.at]

/-- C3 counterexample: two geometrically identical spheres produce hits at
exactly the same `t`; the scene returns the record of the FIRST object
(`sphereA`, Debug material), not the later one, because the narrowed upper
bound is strict. -/
theorem C3_counterexample :
    Sphere.hit id sphereA rayDemo (1 / 1000) 100 = some recTieA ∧
    Sphere.hit id sphereB rayDemo (1 / 1000) 100 = some recTieB ∧
    recTieA.t = recTieB.t ∧
    hittableListHit id [sphereA, sphereB] rayDemo (1 / 1000) 100 = some recTieA ∧
    recTieA ≠ recTieB := by
  norm_num [sphereA, sphereB, rayDemo, recTieA, recTieB, hittableListHit,
    listHitStep, closestSoFar, Sphere.hit, Sphere.record, Sphere.disc,
    Sphere.root1, Sphere.root2, Sphere.hval, Sphere.oc, Interval.surrounds,
    HitRecord.set_face_normal, Ray.at]
  decide

/-- C3 (amended): when a later object's nearest intersection ties the
earlier scan result exactly, the EARLIER object's record is returned. -/
theorem C3_amended_earlier_wins (sq : ℚ → ℚ) (Hsq : ∀ x, 0 ≤ x → 0 ≤ sq x)
    (L : List Sphere) (B : Sphere) (ray : Ray) (t_min t_max : ℚ)
    (recA recB : HitRecord)
    (hA : hittableListHit sq L ray t_min t_max = some recA)
    (hB : Sphere.hit sq B ray t_min t_max = some recB)
    (htie : recB.t = recA.t) :
    hittableListHit sq (L ++ [B]) ray t_min t_max = some recA := by
  have hmemA : t_min < recA.t ∧ recA.t < t_max := by
    obtain ⟨hle, hsrc, hmin⟩ :=
      (listHit_fold_spec sq Hsq ray t_min t_max L none (le_refl _)).2 recA hA
    rcases hsrc with heq | ⟨s, hs, hfs⟩
    · exact Option.noConfusion heq
    · exact Sphere.hit_t_mem sq s ray t_min t_max recA hfs
  have hBnone : B.hit sq ray t_min recA.t = none := by
    cases hB2 : B.hit sq ray t_min recA.t with
    | none => rfl
    | some r =>
      have hfull := Sphere.hit_widen sq Hsq B ray t_min recA.t t_max
        (le_of_lt hmemA.2) r hB2
      rw [hB] at hfull
      obtain rfl := Option.some_injective _ hfull
      have hstrict := (Sphere.hit_t_mem sq B ray t_min recA.t _ hB2).2
      rw [htie] at hstrict
      exact absurd hstrict (lt_irrefl _)
  have hA2 : List.foldl (listHitStep sq ray t_min t_max) none L = some recA := hA
  unfold hittableListHit
  rw [List.foldl_append, hA2]
  simp [List.foldl_cons, listHitStep, closestSoFar, hBnone]

/-- Witness for the amended C3 at the concrete tied two-sphere scene. -/
theorem C3_amended_witness :
    hittableListHit id ([sphereA] ++ [sphereB]) rayDemo (1 / 1000) 100 =
      some recTieA := by
  refine C3_amended_earlier_wins id (fun x hx => hx) [sphereA] sphereB rayDemo
    (1 / 1000) 100 recTieA recTieB ?_ ?_ ?_
  · norm_num [sphereA, rayDemo, recTieA, hittableListHit, listHitStep,
      closestSoFar, Sphere.hit, Sphere.record, Sphere.disc, Sphere.root1,
      Sphere.root2, Sphere.hval, Sphere.oc, Interval.surrounds,
      HitRecord.set_face_normal, Ray.at]
  · norm_num [sphereB, rayDemo, recTieB, Sphere.hit, Sphere.record, Sphere.disc,
      Sphere.root1, Sphere.root2, Sphere.hval, Sphere.oc, Interval.surrounds,
      HitRecord.set_face_normal, Ray.at]
  · rfl

/-- C4: for every sphere intersection test, a negative discriminant yields
no hit; otherwise the smaller root is used if strictly inside
`(t_min, t_max)`, else the larger root is tried, else no hit. -/
theorem C4_root_selection (sq : ℚ → ℚ) (s : Sphere) (ray : Ray)
    (t_min t_max : ℚ) :
    (s.disc ray < 0 → Sphere.hit sq s ray t_min t_max = none) ∧
    (0 ≤ s.disc ray →
      ((Interval.surrounds ⟨t_min, t_max⟩ (s.root1 sq ray) →
          Sphere.hit sq s ray t_min t_max = some (s.record ray (s.root1 sq ray))) ∧
       (¬ Interval.surrounds ⟨t_min, t_max⟩ (s.root1 sq ray) →
          Interval.surrounds ⟨t_min, t_max⟩ (s.root2 sq ray) →
          Sphere.hit sq s ray t_min t_max = some (s.record ray (s.root2 sq ray))) ∧
       (¬ Interval.surrounds ⟨t_min, t_max⟩ (s.root1 sq ray) →
          ¬ Interval.surrounds ⟨t_min, t_max⟩ (s.root2 sq ray) →
          Sphere.hit sq s ray t_min t_max = none))) := by
  simp only [Sphere.hit]
  refine ⟨fun h1 => by rw [if_pos h1], fun h0 => ⟨?_, ?_, ?_⟩⟩
  · intro hs1
    rw [if_neg (not_lt.mpr h0), if_pos hs1]
  · intro hn1 hs2
    rw [if_neg (not_lt.mpr h0), if_neg hn1, if_pos hs2]
  · intro hn1 hn2
    rw [if_neg (not_lt.mpr h0), if_neg hn1, if_neg hn2]

/-- Witness for C4: the repo's `test_sphere_miss` configuration has a
negative discriminant, hence no hit. -/
theorem C4_witness : Sphere.hit id sphereDemo rayMiss 0 100 = none := by
  refine (C4_root_selection id sphereDemo rayMiss 0 100).1 ?_
  norm_num [sphereDemo, rayMiss, Sphere.disc, Sphere.hval, Sphere.oc]

/-- The record built by `Sphere::hit` stores the outward normal
`(P - C)/r` flipped against the ray, records the orientation in
`front_face`, and the reported normal never points with the ray. -/
theorem Sphere.record_spec (s : Sphere) (ray : Ray) (root : ℚ) :
    ((s.record ray root).front_face =
        decide (ray.direction.dot (((s.record ray root).p - s.center) / s.radius) < 0)) ∧
    ((s.record ray root).normal =
        if ray.direction.dot (((s.record ray root).p - s.center) / s.radius) < 0
        then ((s.record ray root).p - s.center) / s.radius
        else -(((s.record ray root).p - s.center) / s.radius)) ∧
    (s.record ray root).normal.dot ray.direction ≤ 0 := by
  by_cases hd : ray.direction.dot ((ray.at root - s.center) / s.radius) < 0
  · refine ⟨?_, ?_, ?_⟩
    · simp [Sphere.record, HitRecord.set_face_normal, hd]
    · simp [Sphere.record, HitRecord.set_face_normal, hd]
    · have : (s.record ray root).normal = (ray.at root - s.center) / s.radius := by
        simp [Sphere.record, HitRecord.set_face_normal, hd]
      rw [this, Vec3.dot_comm]
      exact le_of_lt hd
  · refine ⟨?_, ?_, ?_⟩
    · simp [Sphere.record, HitRecord.set_face_normal, hd]
    · simp [Sphere.record, HitRecord.set_face_normal, hd]
    · have : (s.record ray root).normal = -((ray.at root - s.center) / s.radius) := by
        simp [Sphere.record, HitRecord.set_face_normal, hd]
      rw [this, Vec3.neg_dot, Vec3.dot_comm]
      exact neg_nonpos_of_nonneg (not_lt.mp hd)

/-- C5: every record `Sphere::hit` returns reports `front_face` as the sign
test of the ray direction against the outward normal `(P - C)/r`, reports
that normal flipped against the ray, and the reported normal's dot product
with the ray direction is non-positive. -/
theorem C5_normal_against_ray (sq : ℚ → ℚ) (s : Sphere) (ray : Ray)
    (t_min t_max : ℚ) (rec : HitRecord)
    (h : Sphere.hit sq s ray t_min t_max = some rec) :
    (rec.front_face =
        decide (ray.direction.dot ((rec.p - s.center) / s.radius) < 0)) ∧
    (rec.normal =
        if ray.direction.dot ((rec.p - s.center) / s.radius) < 0
        then (rec.p - s.center) / s.radius
        else -((rec.p - s.center) / s.radius)) ∧
    rec.normal.dot ray.direction ≤ 0 := by
  simp only [Sphere.hit] at h
  split_ifs at h with h1 h2 h3
  · obtain rfl := Option.some_injective _ h
    exact Sphere.record_spec s ray (s.root1 sq ray)
  · obtain rfl := Option.some_injective _ h
    exact Sphere.record_spec s ray (s.root2 sq ray)

/-- Witness for C5 at a concrete sphere hit. -/
theorem C5_witness :
    (recTieA.front_face =
        decide (rayDemo.direction.dot ((recTieA.p - sphereA.center) / sphereA.radius) < 0)) ∧
    (recTieA.normal =
        if rayDemo.direction.dot ((recTieA.p - sphereA.center) / sphereA.radius) < 0
        then (recTieA.p - sphereA.center) / sphereA.radius
        else -((recTieA.p - sphereA.center) / sphereA.radius)) ∧
    recTieA.normal.dot rayDemo.direction ≤ 0 := by
  refine C5_normal_against_ray id sphereA rayDemo (1 / 1000) 100 recTieA ?_
  norm_num [sphereA, rayDemo, recTieA, Sphere.hit, Sphere.record, Sphere.disc,
    Sphere.root1, Sphere.root2, Sphere.hval, Sphere.oc, Interval.surrounds,
    HitRecord.set_face_normal, Ray.at]

/-- C2: the code bug. With reflectance `p = 0` and the possible uniform
draw `q = 0` (allowed: `0 ≤ 0 < 1`), the gate `q > p` is `0 > 0 = false`,
so the helper does NOT absorb: it reaches the attenuation computation and
returns a record whose attenuation is `albedo / 0` — the division by the
zero reflectance is performed (IEEE: a non-finite value), contradicting
the code comment and the spec. -/
theorem C2_zero_reflectance_division_reached :
    (0 : ℚ) ≤ 0 ∧ (0 : ℚ) < 1 ∧ optsZero.reflectance = 0 ∧
    reflectance_scatter id optsZero 0 ⟨1, 0, 0⟩ =
      some ⟨⟨hitC2.p, ⟨0, 0, 1⟩⟩, (⟨1, 1, 1⟩ : Vec3) / (0 : ℚ), none⟩ := by
  norm_num [reflectance_scatter, optsZero, hitC2, Vec3.unit, Vec3.length]

/-- C6 counterexample: `Metal::scatter` normalizes the mirror reflection
FIRST and adds the fuzz perturbation afterwards (never re-normalizing).
With reflection `(0,2,0)`, fuzz `1` and fuzz draw `(0,1,0)`, the code
produces `(0,2,0)`; perturbing before normalizing (as the claim states)
would give `(0,1,0)`. `sqC` agrees with the exact square root at both
points it is consulted. -/
theorem C6_counterexample :
    Metal.scatter sqC metal0 rayIn hitC6 drawC6 = some scC6 ∧
    scC6.ray.direction = ⟨0, 2, 0⟩ ∧
    ((rayIn.direction.reflect hitC6.normal) + metal0.fuzz • drawC6.u2).unit sqC =
      ⟨0, 1, 0⟩ ∧
    (⟨0, 2, 0⟩ : Vec3) ≠ (⟨0, 1, 0⟩ : Vec3) ∧
    sqC 4 * sqC 4 = 4 ∧ sqC 9 * sqC 9 = 9 := by
  norm_num [Metal.scatter, reflectance_scatter, metal0, rayIn, hitC6, drawC6,
    scC6, sqC, Vec3.reflect, Vec3.unit, Vec3.length]

/-- C6 (amended): the outgoing direction of a non-absorbed metal scatter is
the NORMALIZED mirror reflection plus `fuzz * random_unit()` (perturbation
after normalization, no re-normalization), and construction clamps the
stored fuzz to at most `1`. -/
theorem C6_amended_fuzz_after_unit (sq : ℚ → ℚ) (m : Metal) (ray_in : Ray)
    (hit_record : HitRecord) (d : Draws) (p : MetalParams) :
    (∀ sc, Metal.scatter sq m ray_in hit_record d = some sc →
        sc.ray.direction =
          (ray_in.direction.reflect hit_record.normal).unit sq + m.fuzz • d.u2) ∧
    (metalFromParams p = .metal ⟨p.albedo, p.reflectance, min p.fuzz 1⟩ ∧
      min p.fuzz 1 ≤ 1) := by
  constructor
  · intro sc h
    simp only [Metal.scatter, reflectance_scatter] at h
    split_ifs at h with hq ho
    obtain rfl := Option.some_injective _ h
    rfl
  · exact ⟨rfl, min_le_right _ _⟩

/-- Witness for the amended C6 at the concrete metal scatter. -/
theorem C6_witness :
    scC6.ray.direction =
      (rayIn.direction.reflect hitC6.normal).unit sqC + metal0.fuzz • drawC6.u2 ∧
    min (5 : ℚ) 1 ≤ 1 := by
  refine ⟨(C6_amended_fuzz_after_unit sqC metal0 rayIn hitC6 drawC6
      ⟨⟨1, 0, 0⟩, 1, 5⟩).1 scC6 ?_,
    (C6_amended_fuzz_after_unit sqC metal0 rayIn hitC6 drawC6
      ⟨⟨1, 0, 0⟩, 1, 5⟩).2.2⟩
  norm_num [Metal.scatter, reflectance_scatter, metal0, rayIn, hitC6, drawC6,
    scC6, sqC, Vec3.reflect, Vec3.unit, Vec3.length]

/-- C7: the integrator's recursion depth is bounded by the initial depth:
the only recursive call passes `depth - 1` and `depth = 0` is a base case. -/
theorem C7_recursion_depth_bounded (sq : ℚ → ℚ) (world : List Sphere)
    (draws : ℕ → Draws) (ray : Ray) (depth : ℕ) :
    (ray_color_core sq world draws ray depth).2 ≤ depth := by
  induction depth generalizing ray with
  | zero => simp [ray_color_core]
  | succ d ih =>
    simp only [ray_color_core]
    split
    · split
      · split
        · exact Nat.zero_le _
        · exact Nat.succ_le_succ (ih _)
      · exact Nat.zero_le _
    · exact Nat.zero_le _

/-- C8: at depth `0` the integrator returns exact black for every ray and
every scene, without querying the scene. -/
theorem C8_depth_zero_black (sq : ℚ → ℚ) (world : List Sphere)
    (draws : ℕ → Draws) (ray : Ray) :
    ray_color sq world draws ray 0 = ⟨0, 0, 0⟩ := rfl

/-- C9 counterexample: `refract` with index `1.0` is NOT the identity for
arbitrary (non-unit) inputs: the incident vector `(0,-2,0)` against normal
`(0,1,0)` comes out as `(0,-1,0)`. `id` agrees with the exact square root
at the one point it is consulted (`1`). -/
theorem C9_counterexample :
    Vec3.refract id ⟨0, -2, 0⟩ ⟨0, 1, 0⟩ 1 = ⟨0, -1, 0⟩ ∧
    (⟨0, -1, 0⟩ : Vec3) ≠ (⟨0, -2, 0⟩ : Vec3) ∧
    id (1 : ℚ) * id (1 : ℚ) = 1 := by
  norm_num [Vec3.refract, Vec3.cos_theta, min_def]

/-- Multiplying by the scalar `1` is the identity on `Vec3`. -/
theorem Vec3.one_smul (v : Vec3) : (1 : ℚ) • v = v := by
  obtain ⟨a, b, c⟩ := v
  simp [Vec3.smul_mk]

/-- Bilinear expansion of the squared length of `v + c • n`. -/
theorem Vec3.add_smul_length_squared (v n : Vec3) (c : ℚ) :
    (v + c • n).length_squared =
      v.length_squared + 2 * c * v.dot n + c ^ 2 * n.length_squared := by
  obtain ⟨a, b, cc⟩ := v
  obtain ⟨d, e, f⟩ := n
  simp only [Vec3.smul_mk, Vec3.mk_add_mk, Vec3.length_squared_mk, Vec3.dot_mk]
  ring

/-- C9 (amended): on the inputs `refract` is actually called with — a unit
incident vector and a unit normal with non-positive mutual dot product —
refraction with index `1.0` is the identity, provided `sq` is exact at the
one point it is consulted. -/
theorem C9_amended_unit_identity (sq : ℚ → ℚ) (v n : Vec3)
    (hv : v.length_squared = 1) (hn : n.length_squared = 1)
    (hvn : v.dot n ≤ 0) (hs : sq ((v.dot n) ^ 2) = -(v.dot n)) :
    Vec3.refract sq v n 1 = v := by
  have hct : v.cos_theta n = -(v.dot n) := by
    unfold Vec3.cos_theta
    rw [min_eq_left (le_trans hvn zero_le_one)]
  simp only [Vec3.refract, hct, Vec3.one_smul]
  have hperp : (v + (-(v.dot n)) • n).length_squared = 1 - (v.dot n) ^ 2 := by
    rw [Vec3.add_smul_length_squared, hv, hn]
    ring
  rw [hperp]
  have habs : |1 - (1 - (v.dot n) ^ 2)| = (v.dot n) ^ 2 := by
    rw [show (1 : ℚ) - (1 - (v.dot n) ^ 2) = (v.dot n) ^ 2 by ring]
    exact abs_of_nonneg (sq_nonneg _)
  rw [habs, hs, neg_neg]
  obtain ⟨a, b, c⟩ := v
  obtain ⟨d, e, f⟩ := n
  simp only [Vec3.dot_mk, Vec3.smul_mk, Vec3.mk_add_mk, Vec3.mk.injEq]
  refine ⟨by ring, by ring, by ring⟩

/-- Witness for the amended C9 at normal incidence with unit vectors. -/
theorem C9_witness : Vec3.refract id ⟨0, -1, 0⟩ ⟨0, 1, 0⟩ 1 = ⟨0, -1, 0⟩ := by
  refine C9_amended_unit_identity id ⟨0, -1, 0⟩ ⟨0, 1, 0⟩ ?_ ?_ ?_ ?_ <;>
    norm_num [Vec3.length_squared_mk, Vec3.dot_mk]

/-- C10: a zero-radius sphere (here produced by the builder clamping the
negative input `-5` to `0`) is not inert: the ray from the origin straight
at its center yields discriminant exactly `0`, a root `t = 1` strictly
inside `(0.001, 100)`, and a returned hit whose normal is computed as
`(P - C) / 0` with `P = C` — a division by the zero radius (`0/0`, a NaN
in IEEE terms; the exact-rational embedding renders it as `0`) instead of
a miss or an error. -/
theorem C10_zero_radius_not_inert :
    sphereZero.radius = 0 ∧
    Sphere.disc sphereZero rayDemo = 0 ∧
    Sphere.hit id sphereZero rayDemo (1 / 1000) 100 =
      some ⟨⟨0, 0, -1⟩, (⟨0, 0, 0⟩ : Vec3) / (0 : ℚ), 1, false, .empty⟩ ∧
    (⟨0, 0, -1⟩ : Vec3) = sphereZero.center ∧
    (1 / 1000 : ℚ) < 1 ∧ (1 : ℚ) < 100 := by
  norm_num [sphereZero, buildSphere, rayDemo, Sphere.hit, Sphere.record,
    Sphere.disc, Sphere.root1, Sphere.root2, Sphere.hval, Sphere.oc,
    Interval.surrounds, HitRecord.set_face_normal, Ray.at, max_def]

end RayTracer
